import Mathlib

/-!
Verification development for the k8saudit ingestion source
(`plugins/k8saudit/pkg/k8saudit/source.go`).

The Go code is embedded shallowly:

* `fastjson.Value` becomes the inductive `Json`; `Value.Get`,
  `Value.GetStringBytes`, `Value.GetArray` and `Value.MarshalTo` become
  `Json.get`, `Json.getStr`, `Json.getArr` and `Json.marshal` (string
  escaping inside `marshal` is elided, which only affects the exact byte
  count of serialized payloads, never the shape dispatch).
* Go `error` values become `Option String` (`none` is the nil error) at
  the channel level, and the richer `GoError` where the SDK sentinel
  errors `sdk.ErrEOF` / `sdk.ErrTimeout` matter.
* Go stdlib `time.Parse(time.RFC3339Nano, s)` is modelled by
  `parseRFC3339Nano`, returning nanoseconds since the Unix epoch for the
  `Z`-suffixed profile of RFC 3339 (numeric offsets are not modelled; the
  theorems only assume parseability, never a particular accepted set).
* Channel traffic seen by `NextBatch` is modelled as an explicit schedule
  (`List BatchEvent`): each list entry is the branch the Go `select`
  takes on one iteration.  The single `time.After` timer started at the
  top of `NextBatch` appears as the (at most one) `timeout` entry of the
  schedule; an exhausted schedule while the loop still needs input models
  a blocked call and yields `none`.
* Apostrophes inside Go message string literals are elided.
-/

/-- Model of `fastjson.Value`: a parsed JSON tree. -/
inductive Json where
  | null
  | bool (b : Bool)
  | num (n : Int)
  | str (s : String)
  | arr (elems : List Json)
  | obj (fields : List (String × Json))

/-- First field with the given key, scanning in order (fastjson object lookup). -/
def lookupField : List (String × Json) → String → Option Json
  | [], _ => none
  | (k, v) :: rest, key => if k = key then some v else lookupField rest key

/-- Model of `(*fastjson.Value).Get(key)`: the field of an object, `nil`
(`none`) for a missing field or a non-object receiver. -/
def Json.get (v : Json) (key : String) : Option Json :=
  match v with
  | .obj fields => lookupField fields key
  | _ => none

/-- Model of `(*fastjson.Value).GetStringBytes`: the string payload, `nil`
(`none`) for a non-string value. -/
def Json.getStr : Json → Option String
  | .str s => some s
  | _ => none

/-- Model of `(*fastjson.Value).GetArray`: the element list, `nil` (`none`)
for a non-array value. -/
def Json.getArr : Json → Option (List Json)
  | .arr xs => some xs
  | _ => none

mutual
/-- Model of `(*fastjson.Value).MarshalTo(nil)` as a string (escaping of
special characters inside string scalars is elided). -/
def Json.marshal : Json → String
  | .null => "null"
  | .bool b => if b then "true" else "false"
  | .num n => toString n
  | .str s => "\x22" ++ s ++ "\x22"
  | .arr xs => "[" ++ marshalList xs ++ "]"
  | .obj fs => "\x7b" ++ marshalFields fs ++ "\x7d"

/-- Comma-separated serialization of array elements. -/
def marshalList : List Json → String
  | [] => ""
  | [x] => Json.marshal x
  | x :: y :: xs => Json.marshal x ++ "," ++ marshalList (y :: xs)

/-- Comma-separated serialization of object fields. -/
def marshalFields : List (String × Json) → String
  | [] => ""
  | [(k, v)] => "\x22" ++ k ++ "\x22:" ++ Json.marshal v
  | (k, v) :: f :: fs =>
      "\x22" ++ k ++ "\x22:" ++ Json.marshal v ++ "," ++ marshalFields (f :: fs)
end

/-- Days since 1970-01-01 of a proleptic-Gregorian civil date
(the standard era-based formula, truncating division as in Go). -/
def daysFromCivil (y m d : Int) : Int :=
  let yy := if m ≤ 2 then y - 1 else y
  let era := (if 0 ≤ yy then yy else yy - 399) / 400
  let yoe := yy - era * 400
  let mp := if 2 < m then m - 3 else m + 9
  let doy := (153 * mp + 2) / 5 + d - 1
  let doe := yoe * 365 + yoe / 4 - yoe / 100 + doy
  era * 146097 + doe - 719468

/-- Reads exactly `n` decimal digits, MSD first, extending `acc`. -/
def readFixedNat : Nat → Nat → List Char → Option (Nat × List Char)
  | 0, acc, cs => some (acc, cs)
  | Nat.succ n, acc, c :: cs =>
      if c.isDigit then readFixedNat n (acc * 10 + (c.toNat - 48)) cs else none
  | Nat.succ _, _, [] => none

/-- Consumes one expected character. -/
def expectChar (c : Char) : List Char → Option (List Char)
  | x :: xs => if x = c then some xs else none
  | [] => none

/-- Longest digit run at the head of the input, with the remainder. -/
def takeDigits : List Char → List Char × List Char
  | [] => ([], [])
  | c :: cs =>
      if c.isDigit then
        let (ds, r) := takeDigits cs
        (c :: ds, r)
      else ([], c :: cs)

/-- Nanoseconds denoted by a fractional-second digit run (digits beyond the
ninth are truncated, shorter runs are scaled up, as in Go `time.Parse`). -/
def fracNanos (ds : List Char) : Nat :=
  ((ds.take 9).foldl (fun a c => a * 10 + (c.toNat - 48)) 0) * 10 ^ (9 - min 9 ds.length)

/-- Optional `.digits` fractional-second component. -/
def readFrac : List Char → Option (Nat × List Char)
  | '.' :: cs =>
      let (ds, rest) := takeDigits cs
      if ds.isEmpty then none else some (fracNanos ds, rest)
  | cs => some (0, cs)

/-- Model of Go `time.Parse(time.RFC3339Nano, s)` followed by `UnixNano`:
nanoseconds since the Unix epoch on success, `none` on a parse failure.
Only the `Z`-suffixed (UTC) profile is modelled. -/
def parseRFC3339Nano (s : String) : Option Int := do
  let cs := s.toList
  let (y, cs) ← readFixedNat 4 0 cs
  let cs ← expectChar '-' cs
  let (mo, cs) ← readFixedNat 2 0 cs
  let cs ← expectChar '-' cs
  let (d, cs) ← readFixedNat 2 0 cs
  let cs ← expectChar 'T' cs
  let (h, cs) ← readFixedNat 2 0 cs
  let cs ← expectChar ':' cs
  let (mi, cs) ← readFixedNat 2 0 cs
  let cs ← expectChar ':' cs
  let (se, cs) ← readFixedNat 2 0 cs
  let (ns, cs) ← readFrac cs
  match cs with
  | ['Z'] =>
      if 1 ≤ mo ∧ mo ≤ 12 ∧ 1 ≤ d ∧ d ≤ 31 ∧ h ≤ 23 ∧ mi ≤ 59 ∧ se ≤ 59 then
        some (((daysFromCivil (Int.ofNat y) (Int.ofNat mo) (Int.ofNat d)) * 86400
                + (h : Int) * 3600 + (mi : Int) * 60 + (se : Int)) * 1000000000 + (ns : Int))
      else none
  | _ => none

/-- Model of `auditEvent`: the Go struct holds the `fastjson` subvalue and
the parsed stage timestamp (`time.Time`, kept here as Unix nanoseconds). -/
structure AuditEvent where
  data : Json
  timestamp : Int

/-- Model of `(*Plugin).parseJSONAuditEvent`: requires a `stageTimestamp`
field whose string payload parses as RFC 3339; a non-string payload reads
as the empty string (`string(nil)` in Go) and fails the time parse. -/
def parseJSONAuditEvent (value : Json) : Except String AuditEvent :=
  match value.get "stageTimestamp" with
  | none => .error "cant read stageTimestamp"
  | some st =>
      match parseRFC3339Nano ((Json.getStr st).getD "") with
      | none => .error "parsing time: invalid stageTimestamp"
      | some t => .ok ⟨value, t⟩

/-- The `case "EventList"` item loop of `parseJSONMessage`: decodes each
item; the first failing item makes the whole call return `(nil, err)`. -/
def parseEventListItems : List Json → List AuditEvent × Option String
  | [] => ([], none)
  | x :: xs =>
      match parseJSONAuditEvent x with
      | .error e => ([], some e)
      | .ok ev =>
          match parseEventListItems xs with
          | (_, some e) => ([], some e)
          | (rest, none) => (ev :: rest, none)

mutual
/-- Model of `(*Plugin).parseJSONMessage` on a non-nil value, returning the
Go pair `([]*auditEvent, error)`.  Arrays recurse element-wise and stop at
the first failing element, returning the values accumulated before it
together with the error; objects dispatch on `kind`; everything else is
`data not recognized as a k8s audit event`. -/
def parseJSONMessage (value : Json) : List AuditEvent × Option String :=
  match value with
  | .arr elems => parseJSONArray elems
  | v =>
      match v.get "kind" with
      | some kv =>
          match kv.getStr with
          | some kind =>
              if kind = "EventList" then
                match (v.get "items").bind Json.getArr with
                | some items => parseEventListItems items
                | none => ([], some "data not recognized as a k8s audit event")
              else if kind = "Event" then
                match parseJSONAuditEvent v with
                | .error e => ([], some e)
                | .ok ev => ([ev], none)
              else ([], some "data not recognized as a k8s audit event")
          | none => ([], some "data not recognized as a k8s audit event")
      | none => ([], some "data not recognized as a k8s audit event")

/-- The array loop of `parseJSONMessage`: `values, err := parse(v)`;
an error returns the accumulated `res` with the error (dropping the failing
element's own partial values); otherwise `res = append(res, values...)`. -/
def parseJSONArray : List Json → List AuditEvent × Option String
  | [] => ([], none)
  | x :: xs =>
      match parseJSONMessage x with
      | (_, some e) => ([], some e)
      | (values, none) =>
          match parseJSONArray xs with
          | (rest, err) => (values ++ rest, err)
end

/-- One iteration of the parsing goroutine in `openEventSource` for a raw
message whose bytes parsed to `jsonValue`: on a `parseJSONMessage` error the
message is logged and wholly discarded (`continue`), otherwise every decoded
event is forwarded.  Returns the forwarded events and whether an error was
logged. -/
def processMessage (jsonValue : Json) : List AuditEvent × Bool :=
  match parseJSONMessage jsonValue with
  | (_, some _) => ([], true)
  | (values, none) => (values, false)

/-- SDK-level error results of `NextBatch`: the sentinels `sdk.ErrEOF` and
`sdk.ErrTimeout`, and any other Go error by its message. -/
inductive GoError where
  | eof
  | timeout
  | msg (s : String)
deriving DecidableEq

/-- One `select` outcome inside the `NextBatch` loop: which channel fired
and what it carried.  `evtRecv`/`evtClosed` are the event channel with
`ok = true` / `ok = false`; `errRecv e` is a receive from the error channel
(`e = none` is a Go nil error value), `errClosed` its closure. -/
inductive BatchEvent where
  | evtRecv (a : AuditEvent)
  | evtClosed
  | timeout
  | ctxDone
  | errRecv (e : Option String)
  | errClosed

/-- Outcome of one `NextBatch` call: the `eof` flag left on the source, the
slots written (serialized payload and timestamp, in order), the returned
count, and the returned error (`none` is a nil Go error, i.e. success). -/
structure BatchResult where
  eof : Bool
  slots : List (String × Int)
  count : Nat
  err : Option GoError
deriving DecidableEq

/-- The `for i < evts.Len()` loop of `(*eventSource).NextBatch`, driven by
the schedule of select outcomes.  Oversized events (`len(data) >
maxEventSize`) are dropped without filling a slot (`continue`); the
timeout, cancellation, closure and error branches return as in the source;
a full batch returns `(i, nil)`.  `none` models a call still blocked in
`select` when the schedule ends.  Slot writes are modelled as always
succeeding (the SDK writer is an in-memory buffer). -/
def nextBatchLoop (maxEventSize cap : Nat) (i : Nat) (acc : List (String × Int)) :
    List BatchEvent → Option BatchResult
  | [] => if cap ≤ i then some ⟨false, acc, i, none⟩ else none
  | e :: rest =>
      if cap ≤ i then some ⟨false, acc, i, none⟩
      else
        match e with
        | .evtRecv a =>
            let data := Json.marshal a.data
            if maxEventSize < data.length then
              nextBatchLoop maxEventSize cap i acc rest
            else
              nextBatchLoop maxEventSize cap (i + 1) (acc ++ [(data, a.timestamp)]) rest
        | .evtClosed => some ⟨true, acc, i, some .eof⟩
        | .timeout => some ⟨false, acc, i, some .timeout⟩
        | .ctxDone => some ⟨true, acc, i, some .eof⟩
        | .errRecv e => some ⟨true, acc, i, Option.map GoError.msg e⟩
        | .errClosed => some ⟨true, acc, i, some .eof⟩

/-- Model of `(*eventSource).NextBatch`: with `eof` already set it returns
`(0, sdk.ErrEOF)` at once, touching no slot; otherwise it runs the fill
loop on the schedule of select outcomes. -/
def nextBatch (maxEventSize cap : Nat) (eof : Bool) (sched : List BatchEvent) :
    Option BatchResult :=
  if eof then some ⟨true, [], 0, some .eof⟩
  else nextBatchLoop maxEventSize cap 0 [] sched

/-- Model of the scan goroutine body in `OpenFilePath`.  `openErr` is the
`err` variable captured from `os.Open` (necessarily `none`: the goroutine
only runs after a successful open); `lines` are the lines the scanner
yielded before stopping and `scanErr` is `scanner.Err()` afterwards.
Returns the messages sent on `eventChan` (non-empty lines) and the values
sent on `errorChan` — the source sends the captured `err`, not
`scanner.Err()`, when the scan fails. -/
def fileScanLoop (openErr : Option String) (lines : List String)
    (scanErr : Option String) : List String × List (Option String) :=
  (lines.filter (fun l => 0 < l.length),
   match scanErr with
   | some _ => [openErr]
   | none => [])

/-- True when `sub` is a contiguous run at the head of `s`. -/
def listStartsWith : List Char → List Char → Bool
  | _, [] => true
  | [], _ :: _ => false
  | a :: as, b :: bs => a = b && listStartsWith as bs

/-- True when `sub` occurs contiguously anywhere in `s`. -/
def listHasSub (sub : List Char) : List Char → Bool
  | [] => listStartsWith [] sub
  | c :: rest => listStartsWith (c :: rest) sub || listHasSub sub rest

/-- Model of Go `strings.Contains(s, sub)`. -/
def goStringsContains (s sub : String) : Bool :=
  listHasSub sub.toList s.toList

/-- Model of `ioutil.ReadAll` on the `http.MaxBytesReader`-wrapped request
body: an underlying read failure or a body over the limit yields an error,
otherwise the bytes. -/
def readBody (maxSize : Nat) (body : String) (readFails : Bool) : Except String String :=
  if readFails then .error "unexpected EOF"
  else if maxSize < body.length then .error "http: request body too large"
  else .ok body

/-- Outcome of one webhook request: HTTP status, response text, and the
raw messages enqueued on `eventChan`. -/
structure HandlerResult where
  status : Nat
  response : String
  enqueued : List String
deriving DecidableEq

/-- Model of the `HandleFunc` closure in `OpenWebServer`: non-POST → 405,
`Content-Type` not containing `application/json` → 400, body read failure
(including over-limit) → 400 `bad request: <detail>`, else 200 with empty
body and the bytes enqueued as one raw message. -/
def webhookHandler (maxSize : Nat) (method contentType body : String)
    (readFails : Bool) : HandlerResult :=
  if method ≠ "POST" then ⟨405, method ++ " method not allowed", []⟩
  else if goStringsContains contentType "application/json" = false then
    ⟨400, "wrong Content Type", []⟩
  else
    match readBody maxSize body readFails with
    | .error e => ⟨400, "bad request: " ++ e, []⟩
    | .ok bytes => ⟨200, "", [bytes]⟩

/-- Model of `webServerShutdownTimeoutSecs`. -/
def webServerShutdownTimeoutSecs : Nat := 5

/-- Lifecycle-relevant state of one open source: whether its context has
been cancelled and, when a listener shutdown has been requested, the grace
period (seconds) it was bounded by. -/
structure LifeState where
  ctxCancelled : Bool
  shutdownGrace : Option Nat
deriving DecidableEq

/-- Model of the `onClose` closure built in `OpenWebServer`: a graceful
`s.Shutdown` bounded by the 5-second grace period, then `cancelCtx()`. -/
def webhookOnClose (_st : LifeState) : LifeState :=
  ⟨true, some webServerShutdownTimeoutSecs⟩

/-- The `cancel` field `OpenWebServer` installs via `openEventSource`. -/
def webhookSourceCancel : Option (LifeState → LifeState) :=
  some webhookOnClose

/-- The `cancel` field `OpenFilePath` installs: it passes `nil` as the
`onClose` callback to `openEventSource`. -/
def fileSourceCancel : Option (LifeState → LifeState) :=
  none

/-- Model of `(*eventSource).Close`: runs the `cancel` callback when one
was installed, otherwise does nothing. -/
def eventSourceClose (cancel : Option (LifeState → LifeState)) (st : LifeState) : LifeState :=
  match cancel with
  | none => st
  | some f => f st

theorem nextBatchLoop_timeout_not_eof (maxE cap : Nat) (sched : List BatchEvent) :
    ∀ i acc r, nextBatchLoop maxE cap i acc sched = some r →
      r.err = some .timeout → r.eof = false := by
  induction sched with
  | nil =>
      intro i acc r h _
      rw [nextBatchLoop.eq_def] at h
      dsimp only at h
      split at h
      · injection h with h; subst h; rfl
      · exact absurd h (by simp)
  | cons e rest ih =>
      intro i acc r h ht
      rw [nextBatchLoop.eq_def] at h
      dsimp only at h
      split at h
      · injection h with h; subst h; rfl
      · cases e with
        | evtRecv a =>
            dsimp only at h
            split at h
            · exact ih _ _ _ h ht
            · exact ih _ _ _ h ht
        | evtClosed => injection h with h; subst h; simp at ht
        | timeout => injection h with h; subst h; rfl
        | ctxDone => injection h with h; subst h; simp at ht
        | errRecv e2 =>
            injection h with h; subst h
            cases e2 with
            | none => simp at ht
            | some s => simp at ht
        | errClosed => injection h with h; subst h; simp at ht

theorem nextBatchLoop_count_eq_slots (maxE cap : Nat) (sched : List BatchEvent) :
    ∀ i acc r, acc.length = i → nextBatchLoop maxE cap i acc sched = some r →
      r.count = r.slots.length := by
  induction sched with
  | nil =>
      intro i acc r hlen h
      rw [nextBatchLoop.eq_def] at h
      dsimp only at h
      split at h
      · injection h with h; subst h; exact hlen.symm
      · exact absurd h (by simp)
  | cons e rest ih =>
      intro i acc r hlen h
      rw [nextBatchLoop.eq_def] at h
      dsimp only at h
      split at h
      · injection h with h; subst h; exact hlen.symm
      · cases e with
        | evtRecv a =>
            dsimp only at h
            split at h
            · exact ih _ _ _ hlen h
            · exact ih _ _ _ (by simp [hlen]) h
        | evtClosed => injection h with h; subst h; exact hlen.symm
        | timeout => injection h with h; subst h; exact hlen.symm
        | ctxDone => injection h with h; subst h; exact hlen.symm
        | errRecv e2 => injection h with h; subst h; exact hlen.symm
        | errClosed => injection h with h; subst h; exact hlen.symm

/-- C4: when the wait budget elapses, `NextBatch` returns the count filled
so far with `sdk.ErrTimeout` — `(0, TimedOut)` when nothing arrived — the
`eof` flag stays clear (any timeout result is a non-exhausted result whose
count matches the filled slots), and a later call on the still-active
source can deliver a record. -/
theorem c4_timeout_is_not_exhaustion (maxEventSize cap : Nat) (a : AuditEvent)
    (hcap : 2 ≤ cap) (hsize : (Json.marshal a.data).length ≤ maxEventSize) :
    nextBatch maxEventSize cap false [.timeout] = some ⟨false, [], 0, some .timeout⟩ ∧
    (∀ sched r, nextBatch maxEventSize cap false sched = some r →
        r.err = some .timeout → r.eof = false ∧ r.count = r.slots.length) ∧
    nextBatch maxEventSize cap false [.evtRecv a, .timeout]
      = some ⟨false, [(Json.marshal a.data, a.timestamp)], 1, some .timeout⟩ := by
  refine ⟨?_, ?_, ?_⟩
  · show nextBatchLoop maxEventSize cap 0 [] [.timeout] = _
    rw [nextBatchLoop.eq_def]
    dsimp only
    rw [if_neg (by omega)]
  · intro sched r h ht
    replace h : nextBatchLoop maxEventSize cap 0 [] sched = some r := h
    exact ⟨nextBatchLoop_timeout_not_eof maxEventSize cap sched 0 [] r h ht,
           nextBatchLoop_count_eq_slots maxEventSize cap sched 0 [] r rfl h⟩
  · show nextBatchLoop maxEventSize cap 0 [] [.evtRecv a, .timeout] = _
    rw [nextBatchLoop.eq_def]
    dsimp only
    rw [if_neg (by omega), if_neg (Nat.not_lt.mpr hsize)]
    rw [nextBatchLoop.eq_def]
    dsimp only
    rw [if_neg (by omega)]
    simp

theorem c4_timeout_is_not_exhaustion_witness :
    nextBatch 16 2 false [.timeout] = some ⟨false, [], 0, some .timeout⟩ ∧
    (∀ sched r, nextBatch 16 2 false sched = some r →
        r.err = some .timeout → r.eof = false ∧ r.count = r.slots.length) ∧
    nextBatch 16 2 false [.evtRecv ⟨.null, 7⟩, .timeout]
      = some ⟨false, [("null", 7)], 1, some .timeout⟩ :=
  c4_timeout_is_not_exhaustion 16 2 ⟨.null, 7⟩ (by decide) (by decide)

/-- C1: the claim is right and the code is wrong.  When the scanner stops
with a read failure before EOF, `OpenFilePath` executes `errorChan <- err`
where `err` is the captured `os.Open` error — necessarily nil — instead of
`scanner.Err()`.  The value delivered on the error queue is therefore the
nil error, and the pull call that consumes it returns `(i, nil)` — a
success status, not the read error — while still marking the source
exhausted. -/
theorem c1_file_read_error_delivered_as_nil :
    fileScanLoop none ["\x7b\x22kind\x22:\x22Event\x22\x7d"]
        (some "bufio.Scanner: token too long")
      = (["\x7b\x22kind\x22:\x22Event\x22\x7d"], [none]) ∧
    nextBatch 64 8 false [.errRecv none] = some ⟨true, [], 0, none⟩ :=
  ⟨rfl, rfl⟩

/-- C2: exhaustion is terminal.  Once the `eof` flag is set, every
`NextBatch` call returns `(0, sdk.ErrEOF)` immediately, fills no slot, and
leaves the flag set, whatever traffic is still pending on the channels. -/
theorem c2_exhausted_source_is_terminal (maxEventSize cap : Nat) (sched : List BatchEvent) :
    nextBatch maxEventSize cap true sched = some ⟨true, [], 0, some .eof⟩ :=
  rfl

/-- C7: an event whose serialized length exceeds `maxEventSize` is dropped
by `continue`: the loop state (slot index and written slots) is unchanged
and the remaining schedule — including the single `time.After` timer
started when the call began — is processed exactly as if the oversized
event had never arrived. -/
theorem c7_oversized_event_dropped_without_slot (maxEventSize cap i : Nat)
    (acc : List (String × Int)) (a : AuditEvent) (rest : List BatchEvent)
    (hover : maxEventSize < (Json.marshal a.data).length) (hi : i < cap) :
    nextBatchLoop maxEventSize cap i acc (.evtRecv a :: rest)
      = nextBatchLoop maxEventSize cap i acc rest := by
  rw [nextBatchLoop]
  rw [if_neg (Nat.not_le.mpr hi)]
  simp only [if_pos hover]

theorem c7_oversized_event_dropped_without_slot_witness :
    nextBatchLoop 3 1 0 [] [.evtRecv ⟨.null, 0⟩, .timeout] = nextBatchLoop 3 1 0 [] [.timeout] :=
  c7_oversized_event_dropped_without_slot 3 1 0 [] ⟨.null, 0⟩ [.timeout]
    (by decide) (by decide)

/-- C9 counterexample: the claim fails for the file variant.  `OpenFilePath`
passes `nil` as the `onClose` callback and a background context, so
`Close()` on a file source runs no cancellation at all: the state is
unchanged and in particular no cancellation signal fires. -/
theorem c9_file_close_fires_no_signal_cex :
    eventSourceClose fileSourceCancel ⟨false, none⟩ = ⟨false, none⟩ ∧
    (eventSourceClose fileSourceCancel ⟨false, none⟩).ctxCancelled = false :=
  ⟨rfl, rfl⟩

/-- C9 amended: for the webhook variant, `Close()` performs the graceful
listener shutdown bounded by the 5-second grace period and then fires the
cancellation signal, and it is idempotent; for the file variant, `Close()`
is a no-op (its `cancel` callback is nil), so no cancellation signal is
fired. -/
theorem c9_close_semantics_amended :
    (∀ st, eventSourceClose webhookSourceCancel st
        = ⟨true, some webServerShutdownTimeoutSecs⟩) ∧
    (∀ st, eventSourceClose webhookSourceCancel (eventSourceClose webhookSourceCancel st)
        = eventSourceClose webhookSourceCancel st) ∧
    webServerShutdownTimeoutSecs = 5 ∧
    (∀ st, eventSourceClose fileSourceCancel st = st) :=
  ⟨fun _ => rfl, fun _ => rfl, rfl, fun _ => rfl⟩

/-- C10: a message parsing to the empty JSON array yields zero records and
a nil error, so the dispatching goroutine logs nothing and discards
nothing; an object of unrecognized shape instead yields the
`data not recognized` error and is logged and discarded. -/
theorem c10_empty_array_zero_records_no_error :
    parseJSONMessage (.arr []) = ([], none) ∧
    processMessage (.arr []) = ([], false) ∧
    parseJSONMessage (.obj [("foo", .str "x")])
      = ([], some "data not recognized as a k8s audit event") ∧
    processMessage (.obj [("foo", .str "x")]) = ([], true) :=
  ⟨rfl, rfl, rfl, rfl⟩

theorem parseJSONArray_stops (x : Json) (e : String) (ys : List Json)
    (hx : (parseJSONMessage x).2 = some e) :
    ∀ xs : List Json, (∀ z ∈ xs, (parseJSONMessage z).2 = none) →
      parseJSONArray (xs ++ x :: ys)
        = ((xs.map fun z => (parseJSONMessage z).1).flatten, some e) := by
  intro xs
  induction xs with
  | nil =>
      intro _
      simp only [List.nil_append, List.map_nil, List.flatten_nil]
      rw [parseJSONArray]
      rcases hpx : parseJSONMessage x with ⟨vals, err⟩
      rw [hpx] at hx
      dsimp at hx
      subst hx
      rfl
  | cons z zs ih =>
      intro hall
      have hz := hall z (List.mem_cons_self z zs)
      have hzs : ∀ w ∈ zs, (parseJSONMessage w).2 = none :=
        fun w hw => hall w (List.mem_cons_of_mem z hw)
      rcases hpz : parseJSONMessage z with ⟨vals, err⟩
      rw [hpz] at hz
      dsimp at hz
      subst hz
      rw [List.cons_append, parseJSONArray, hpz]
      rw [ih hzs]
      simp [hpz]

/-- C3 counterexample: in a bare JSON array, an element of unrecognized
shape is not discarded independently.  Here the array holds an
unrecognized object followed by a fully valid Event, yet the whole message
errors with `data not recognized` and the dispatcher emits zero records:
the valid sibling is never delivered. -/
theorem c3_unrecognized_element_aborts_array_cex :
    parseJSONMessage (.arr [.obj [("foo", .str "bar")],
        .obj [("kind", .str "Event"), ("stageTimestamp", .str "2023-01-01T00:00:00Z")]])
      = ([], some "data not recognized as a k8s audit event") ∧
    processMessage (.arr [.obj [("foo", .str "bar")],
        .obj [("kind", .str "Event"), ("stageTimestamp", .str "2023-01-01T00:00:00Z")]])
      = ([], true) :=
  ⟨rfl, rfl⟩

/-- C3 amended: any failing element of a bare JSON array — unrecognized
shape just like malformed timestamp — stops the array scan: the error
propagates with only the values accumulated before the failing element,
the elements after it are never examined (the result is independent of
them), and the dispatching goroutine then logs the error and discards the
whole message, emitting no record at all. -/
theorem c3_unrecognized_element_aborts_array (xs ys zs : List Json) (x : Json) (e : String)
    (hxs : ∀ z ∈ xs, (parseJSONMessage z).2 = none)
    (hx : (parseJSONMessage x).2 = some e) :
    parseJSONMessage (.arr (xs ++ x :: ys))
      = ((xs.map fun z => (parseJSONMessage z).1).flatten, some e) ∧
    parseJSONMessage (.arr (xs ++ x :: ys)) = parseJSONMessage (.arr (xs ++ x :: zs)) ∧
    processMessage (.arr (xs ++ x :: ys)) = ([], true) := by
  have h1 := parseJSONArray_stops x e ys hx xs hxs
  have h2 := parseJSONArray_stops x e zs hx xs hxs
  have harr : ∀ ws : List Json, parseJSONMessage (.arr ws) = parseJSONArray ws :=
    fun ws => rfl
  refine ⟨?_, ?_, ?_⟩
  · rw [harr, h1]
  · rw [harr, harr, h1, h2]
  · rw [processMessage, harr, h1]

theorem c3_unrecognized_element_aborts_array_witness :
    parseJSONMessage (.arr ([] ++ (.obj [("foo", .str "bar")]) ::
        [.obj [("kind", .str "Event"), ("stageTimestamp", .str "2023-01-01T00:00:00Z")]]))
      = ((([] : List Json).map fun z => (parseJSONMessage z).1).flatten,
         some "data not recognized as a k8s audit event") ∧
    parseJSONMessage (.arr ([] ++ (.obj [("foo", .str "bar")]) ::
        [.obj [("kind", .str "Event"), ("stageTimestamp", .str "2023-01-01T00:00:00Z")]]))
      = parseJSONMessage (.arr ([] ++ (.obj [("foo", .str "bar")]) :: [])) ∧
    processMessage (.arr ([] ++ (.obj [("foo", .str "bar")]) ::
        [.obj [("kind", .str "Event"), ("stageTimestamp", .str "2023-01-01T00:00:00Z")]]))
      = ([], true) :=
  c3_unrecognized_element_aborts_array []
    [.obj [("kind", .str "Event"), ("stageTimestamp", .str "2023-01-01T00:00:00Z")]] []
    (.obj [("foo", .str "bar")]) "data not recognized as a k8s audit event"
    (by simp) (by rfl)

theorem parseJSONAuditEvent_ok (x : Json) (ts : String) (t : Int)
    (hts : x.get "stageTimestamp" = some (.str ts))
    (hparse : parseRFC3339Nano ts = some t) :
    parseJSONAuditEvent x = .ok ⟨x, t⟩ := by
  unfold parseJSONAuditEvent
  rw [hts]
  dsimp only [Json.getStr, Option.getD]
  rw [hparse]

/-- C5: a JSON object of kind `Event` whose `stageTimestamp` string parses
as an RFC 3339 timestamp yields exactly one audit event, carrying exactly
the parsed timestamp, and the dispatcher forwards it without logging. -/
theorem c5_event_yields_one_record (v : Json) (ts : String) (t : Int)
    (hkind : v.get "kind" = some (.str "Event"))
    (hts : v.get "stageTimestamp" = some (.str ts))
    (hparse : parseRFC3339Nano ts = some t) :
    parseJSONMessage v = ([⟨v, t⟩], none) ∧ processMessage v = ([⟨v, t⟩], false) := by
  have hok := parseJSONAuditEvent_ok v ts t hts hparse
  have hmain : parseJSONMessage v = ([⟨v, t⟩], none) := by
    cases v with
    | obj fs =>
        rw [parseJSONMessage.eq_def]
        dsimp only
        rw [hkind]
        dsimp only [Json.getStr]
        rw [if_neg (by decide), if_pos (by decide)]
        rw [hok]
    | null => simp [Json.get] at hkind
    | bool b => simp [Json.get] at hkind
    | num n => simp [Json.get] at hkind
    | str s => simp [Json.get] at hkind
    | arr xs => simp [Json.get] at hkind
  refine ⟨hmain, ?_⟩
  rw [processMessage, hmain]

theorem c5_event_yields_one_record_witness :
    parseJSONMessage (.obj [("kind", .str "Event"),
        ("stageTimestamp", .str "2023-01-01T00:00:00Z")])
      = ([⟨.obj [("kind", .str "Event"),
          ("stageTimestamp", .str "2023-01-01T00:00:00Z")], 1672531200000000000⟩], none) ∧
    processMessage (.obj [("kind", .str "Event"),
        ("stageTimestamp", .str "2023-01-01T00:00:00Z")])
      = ([⟨.obj [("kind", .str "Event"),
          ("stageTimestamp", .str "2023-01-01T00:00:00Z")], 1672531200000000000⟩], false) :=
  c5_event_yields_one_record
    (.obj [("kind", .str "Event"), ("stageTimestamp", .str "2023-01-01T00:00:00Z")])
    "2023-01-01T00:00:00Z" 1672531200000000000 (by rfl) (by rfl) (by rfl)

theorem parseEventListItems_all_valid (items : List Json)
    (hvalid : ∀ x ∈ items, ∃ ts t, x.get "stageTimestamp" = some (.str ts) ∧
        parseRFC3339Nano ts = some t) :
    ∃ evs, parseEventListItems items = (evs, none) ∧ evs.map AuditEvent.data = items := by
  induction items with
  | nil => exact ⟨[], rfl, rfl⟩
  | cons x xs ih =>
      obtain ⟨ts, t, hts, hp⟩ := hvalid x (List.mem_cons_self x xs)
      obtain ⟨evs, hevs, hdata⟩ := ih (fun w hw => hvalid w (List.mem_cons_of_mem x hw))
      refine ⟨⟨x, t⟩ :: evs, ?_, ?_⟩
      · rw [parseEventListItems]
        rw [parseJSONAuditEvent_ok x ts t hts hp]
        rw [hevs]
      · simp [hdata]

/-- C6: a JSON object of kind `EventList` whose `items` array holds N valid
Event objects yields exactly N audit events, in item order (the k-th record
carries the k-th item as its payload), with a nil error. -/
theorem c6_eventlist_yields_n_records (v : Json) (items : List Json)
    (hkind : v.get "kind" = some (.str "EventList"))
    (hitems : v.get "items" = some (.arr items))
    (hvalid : ∀ x ∈ items, x.get "kind" = some (.str "Event") ∧
        ∃ ts t, x.get "stageTimestamp" = some (.str ts) ∧ parseRFC3339Nano ts = some t) :
    ∃ evs, parseJSONMessage v = (evs, none) ∧ evs.map AuditEvent.data = items ∧
      evs.length = items.length := by
  obtain ⟨evs, hevs, hdata⟩ :=
    parseEventListItems_all_valid items (fun x hx => (hvalid x hx).2)
  refine ⟨evs, ?_, hdata, by rw [← hdata, List.length_map]⟩
  cases v with
  | obj fs =>
      rw [parseJSONMessage.eq_def]
      dsimp only
      rw [hkind]
      dsimp only [Json.getStr]
      rw [if_pos (by decide)]
      rw [hitems]
      dsimp only [Option.bind, Json.getArr]
      rw [hevs]
  | null => simp [Json.get] at hkind
  | bool b => simp [Json.get] at hkind
  | num n => simp [Json.get] at hkind
  | str s => simp [Json.get] at hkind
  | arr xs => simp [Json.get] at hkind

theorem c6_eventlist_yields_n_records_witness :
    ∃ evs, parseJSONMessage (.obj [("kind", .str "EventList"),
        ("items", .arr [.obj [("kind", .str "Event"),
                              ("stageTimestamp", .str "2023-01-01T00:00:00Z")],
                        .obj [("kind", .str "Event"),
                              ("stageTimestamp", .str "2023-01-01T00:00:01Z")]])])
        = (evs, none) ∧
      evs.map AuditEvent.data
        = [.obj [("kind", .str "Event"), ("stageTimestamp", .str "2023-01-01T00:00:00Z")],
           .obj [("kind", .str "Event"), ("stageTimestamp", .str "2023-01-01T00:00:01Z")]] ∧
      evs.length = ([.obj [("kind", .str "Event"),
                           ("stageTimestamp", .str "2023-01-01T00:00:00Z")],
                     .obj [("kind", .str "Event"),
                           ("stageTimestamp", .str "2023-01-01T00:00:01Z")]] : List Json).length :=
  c6_eventlist_yields_n_records
    (.obj [("kind", .str "EventList"),
        ("items", .arr [.obj [("kind", .str "Event"),
                              ("stageTimestamp", .str "2023-01-01T00:00:00Z")],
                        .obj [("kind", .str "Event"),
                              ("stageTimestamp", .str "2023-01-01T00:00:01Z")]])])
    [.obj [("kind", .str "Event"), ("stageTimestamp", .str "2023-01-01T00:00:00Z")],
     .obj [("kind", .str "Event"), ("stageTimestamp", .str "2023-01-01T00:00:01Z")]]
    (by rfl) (by rfl)
    (by
      intro x hx
      simp only [List.mem_cons, List.mem_singleton] at hx
      rcases hx with rfl | rfl | hx
      · exact ⟨rfl, "2023-01-01T00:00:00Z", 1672531200000000000, rfl, rfl⟩
      · exact ⟨rfl, "2023-01-01T00:00:01Z", 1672531201000000000, rfl, rfl⟩
      · exact absurd hx (List.not_mem_nil x))

/-- C8: the webhook HTTP handler rejects a non-POST method with 405 and no
message; rejects a `Content-Type` without the `application/json` substring
with 400 and no message; answers a failed body read (including a body over
the configured size cap) with 400 `bad request: <detail>` and no message;
and acknowledges an accepted body with 200, an empty response body, and
exactly one enqueued raw message. -/
theorem c8_webhook_handler_contract (maxSize : Nat) (method contentType body : String)
    (readFails : Bool) :
    (method ≠ "POST" → webhookHandler maxSize method contentType body readFails
        = ⟨405, method ++ " method not allowed", []⟩) ∧
    (method = "POST" → goStringsContains contentType "application/json" = false →
        webhookHandler maxSize method contentType body readFails
          = ⟨400, "wrong Content Type", []⟩) ∧
    (method = "POST" → goStringsContains contentType "application/json" = true →
        (readFails = true ∨ maxSize < body.length) →
        ∃ e, webhookHandler maxSize method contentType body readFails
          = ⟨400, "bad request: " ++ e, []⟩) ∧
    (method = "POST" → goStringsContains contentType "application/json" = true →
        readFails = false → body.length ≤ maxSize →
        webhookHandler maxSize method contentType body readFails = ⟨200, "", [body]⟩) := by
  refine ⟨?_, ?_, ?_, ?_⟩
  · intro h
    rw [webhookHandler, if_pos h]
  · intro hm hc
    rw [webhookHandler, if_neg (not_not_intro hm), if_pos hc]
  · intro hm hc hbad
    rw [webhookHandler, if_neg (not_not_intro hm), if_neg (by simp [hc])]
    cases readFails with
    | true => exact ⟨"unexpected EOF", by rw [readBody, if_pos rfl]⟩
    | false =>
        rcases hbad with hrf | hlen
        · exact absurd hrf (by simp)
        · exact ⟨"http: request body too large",
            by rw [readBody, if_neg (by simp), if_pos hlen]⟩
  · intro hm hc hrf hlen
    subst hrf
    rw [webhookHandler, if_neg (not_not_intro hm), if_neg (by simp [hc]), readBody,
        if_neg (by simp), if_neg (Nat.not_lt.mpr hlen)]

theorem c8_webhook_handler_contract_witness :
    webhookHandler 10 "GET" "application/json" "" false
      = ⟨405, "GET method not allowed", []⟩ ∧
    webhookHandler 10 "POST" "text/plain" "" false
      = ⟨400, "wrong Content Type", []⟩ ∧
    (∃ e, webhookHandler 2 "POST" "application/json" "abc" false
      = ⟨400, "bad request: " ++ e, []⟩) ∧
    webhookHandler 10 "POST" "application/json; charset=utf-8" "ok" false
      = ⟨200, "", ["ok"]⟩ :=
  ⟨(c8_webhook_handler_contract 10 "GET" "application/json" "" false).1 (by decide),
   (c8_webhook_handler_contract 10 "POST" "text/plain" "" false).2.1 rfl (by decide),
   (c8_webhook_handler_contract 2 "POST" "application/json" "abc" false).2.2.1 rfl
     (by decide) (Or.inr (by decide)),
   (c8_webhook_handler_contract 10 "POST" "application/json; charset=utf-8" "ok" false).2.2.2
     rfl (by decide) rfl (by decide)⟩

example : parseRFC3339Nano "2023-01-01T00:00:00Z" = some 1672531200000000000 := by rfl

example : parseRFC3339Nano "2023-01-01T00:00:00.000000001Z" = some 1672531200000000001 := by rfl

example :
    processMessage (.obj [("kind", .str "Event"),
                          ("stageTimestamp", .str "2023-01-01T00:00:00Z")])
      = ([⟨.obj [("kind", .str "Event"),
                 ("stageTimestamp", .str "2023-01-01T00:00:00Z")], 1672531200000000000⟩], false) := by
  rfl
